import Mathlib

/-!
Verification of core components of the aws-iot-fleetwise-edge agent.

Each C++ source construct is shallowly embedded as an executable Lean
definition keeping the source's names; theorems then settle the stated
properties.  Mutex-guarded C++ state becomes explicit state passing; the
critical sections are sequential, so each locked method is one pure
function from the pre-state to the post-state and the result.
-/

namespace FleetWise

/-! ## Configuration constants (src/CollectionInspectionAPITypes.h,
    AwsIotChannel.h, CollectionInspectionWorkerThread.h) -/

def MAX_NUMBER_OF_ACTIVE_CONDITION : Nat := 256

def ALL_CONDITIONS : Nat := 0xFFFFFFFF

def MAX_EQUATION_DEPTH : Nat := 10

def MAX_DIFFERENT_SIGNAL_IDS : Nat := 50000

def MAXIMUM_IOT_SDK_HEAP_MEMORY_BYTES : Nat := 10000000

def AWS_IOT_MAX_MESSAGE_SIZE : Nat := 131072

def EVALUATE_INTERVAL_MS : Nat := 1

/-! ## LockedQueue (src/CollectionInspectionAPITypes.h, lines 354-410)

`std::queue` pushes at the back and pops at the front; we keep the front of
the queue at the head of the list, so `mQueue.push(e)` appends at the end
and `mQueue.front()/pop()` read and drop the head.  The mutex only
serializes the methods, so each method is a pure state transformer. -/

structure LockedQueue (α : Type) where
  mMaxSize : Nat
  mQueue : List α
deriving Repr, DecidableEq

namespace LockedQueue

/-- `LockedQueue(size_t maxSize)`: the constructor;  `mQueue` starts empty. -/
def mk' (α : Type) (maxSize : Nat) : LockedQueue α :=
  { mMaxSize := maxSize, mQueue := [] }

/-- `bool push( const T &&element )`: refuse when `mQueue.size() + 1 > mMaxSize`,
    otherwise append at the back.  Returns the C++ return value and the
    post-state. -/
def push {α : Type} (q : LockedQueue α) (element : α) : Bool × LockedQueue α :=
  if q.mQueue.length + 1 > q.mMaxSize then
    (false, q)
  else
    (true, { q with mQueue := q.mQueue ++ [element] })

/-- `bool pop( T &element )`: return false on empty, else yield the front and
    drop it. -/
def pop {α : Type} (q : LockedQueue α) : Option α × LockedQueue α :=
  match q.mQueue with
  | [] => (none, q)
  | x :: rest => (some x, { q with mQueue := rest })

/-- `size_t consumeAll( const Functor &functor )`: loop `while ( pop( element ) )`
    applying the functor.  Returns the count, the functor call results in call
    order, and the post-state.  Structural recursion on the queue contents
    mirrors the loop, which removes one element per iteration. -/
def consumeAll {α β : Type} (q : LockedQueue α) (functor : α → β) :
    Nat × List β × LockedQueue α :=
  match h : q.pop with
  | (none, _) => (0, [], q)
  | (some x, q') =>
    have hlen : q'.mQueue.length < q.mQueue.length := by
      unfold pop at h
      cases hq : q.mQueue with
      | nil => rw [hq] at h; simp at h
      | cons a rest =>
        rw [hq] at h
        simp only [Prod.mk.injEq] at h
        rw [← h.2]
        simp [hq]
    let r := consumeAll q' functor
    (r.1 + 1, functor x :: r.2.1, r.2.2)
termination_by q.mQueue.length

/-- `bool isEmpty()`. -/
def isEmpty {α : Type} (q : LockedQueue α) : Bool :=
  q.mQueue.isEmpty

end LockedQueue

/-! A client-visible history of one queue: the sequence of push/pop calls,
together with the elements accepted by `push` and the elements returned by
`pop`, both in call order.  The mutex serializes the calls, so any
concurrent history is some interleaving, i.e. some `List (QueueOp α)`. -/

inductive QueueOp (α : Type) where
  | push (v : α)
  | pop
deriving Repr

structure QueueTrace (α : Type) where
  queue : LockedQueue α
  accepted : List α
  popped : List α

def stepOp {α : Type} (t : QueueTrace α) : QueueOp α → QueueTrace α
  | .push v =>
    let r := t.queue.push v
    { t with
      queue := r.2
      accepted := if r.1 then t.accepted ++ [v] else t.accepted }
  | .pop =>
    let r := t.queue.pop
    { t with
      queue := r.2
      popped :=
        match r.1 with
        | some x => t.popped ++ [x]
        | none => t.popped }

def runOps {α : Type} (c : Nat) (ops : List (QueueOp α)) : QueueTrace α :=
  ops.foldl stepOp { queue := LockedQueue.mk' α c, accepted := [], popped := [] }

/-! ## ISOTPOverCANReceiver::receivePDU
    (src/vehiclenetwork/src/ISOTPOverCANReceiver.cpp, lines 140-169)

The syscalls are the environment: `pollRes` is what `poll` returns, and the
`read` call is modelled by the returned count `bytesRead` together with the
bytes `readContent` it writes into the front of the buffer
(`readContent.length = bytesRead.toNat` when the read succeeds).
`P2_TIMEOUT_INFINITE` lives in a header that is not part of the sources
here, so it stays a parameter; only the comparison against it matters. -/

def MAX_PDU_SIZE : Nat := 5000

/-- `std::vector<uint8_t>::resize(n)`: truncate to `n`, zero-padding if the
    vector was shorter. -/
def vectorResize (v : List Nat) (n : Nat) : List Nat :=
  v.take n ++ List.replicate (n - v.length) 0

def receivePDU (mP2TimeoutMs p2TimeoutInfinite : Nat) (pollRes : Int)
    (bytesRead : Int) (readContent : List Nat) (pduData : List Nat) :
    Bool × List Nat :=
  if mP2TimeoutMs > p2TimeoutInfinite ∧ pollRes ≤ 0 then
    (false, pduData)
  else
    let buf := readContent ++ (vectorResize pduData MAX_PDU_SIZE).drop readContent.length
    if bytesRead > 0 then
      (true, vectorResize buf bytesRead.toNat)
    else
      (false, vectorResize buf 0)

/-! ## CPUUsageInfo::reportCPUUsageInfo
    (src/platform/linux/resourcemanagement/src/CPUUsageInfo.cpp, lines 32-69)

`getrusage` is modelled as `Option Rusage` (`none` = nonzero return);
`/proc/uptime` as a flag `fileOpen` plus the `sscanf` outcome `scan`
(`none` = fewer than 4 fields matched; `some (A, B, C, D)` = the line
parsed as "A.B C.D").  The `double` arithmetic is carried out in `ℚ`. -/

structure Rusage where
  ru_utime_sec : Nat
  ru_utime_usec : Nat
  ru_stime_sec : Nat
  ru_stime_usec : Nat

structure CPUUsageInfo where
  mUserSpaceTime : ℚ
  mKernelSpaceTime : ℚ
  mIdleTime : ℚ

def reportCPUUsageInfo (st : CPUUsageInfo) (rusage : Option Rusage)
    (fileOpen : Bool) (scan : Option (Nat × Nat × Nat × Nat)) :
    Bool × CPUUsageInfo :=
  match rusage with
  | none => (false, st)
  | some ru =>
    let st1 : CPUUsageInfo :=
      { st with
        mUserSpaceTime := (ru.ru_utime_sec : ℚ) + (1 / 1000000 : ℚ) * ru.ru_utime_usec
        mKernelSpaceTime := (ru.ru_stime_sec : ℚ) + (1 / 1000000 : ℚ) * ru.ru_stime_usec }
    if fileOpen then
      match scan with
      | some (uptimeSeconds, _uptimeFraction, _idleTimeSeconds, idleTimeFraction) =>
        (true, { st1 with mIdleTime := (uptimeSeconds : ℚ) + (idleTimeFraction : ℚ) / 100 })
      | none => (true, st1)
    else
      (true, st1)

/-! ## MQTT channel send (spec §4.7) -/

inductive ConnectivityError where
  | Success
  | NoConnection
  | QuotaReached
  | PayloadTooLarge
deriving Repr, DecidableEq

/-- `AwsIotChannel::getMaxSendSize` returns `AWS_IOT_MAX_MESSAGE_SIZE`
    (AwsIotChannel.h documents the 128 KiB AWS IoT Core limit). -/
def getMaxSendSize : Nat := AWS_IOT_MAX_MESSAGE_SIZE

/-- Modelled from the spec: `AwsIotChannel::send` is only declared under
    src/ (AwsIotChannel.h); its implementation file is missing.  Following
    §4.7: a payload above `max_send_size` fails with `PayloadTooLarge`
    (listed first); otherwise the send fails with `QuotaReached` when SDK
    heap usage is at least `MAXIMUM_IOT_SDK_HEAP_MEMORY_BYTES`; on success
    the message size is debited from the shared ledger `usage`. -/
def send (usage : Nat) (size : Nat) : ConnectivityError × Nat :=
  if size > getMaxSendSize then
    (ConnectivityError.PayloadTooLarge, usage)
  else if usage ≥ MAXIMUM_IOT_SDK_HEAP_MEMORY_BYTES then
    (ConnectivityError.QuotaReached, usage)
  else
    (ConnectivityError.Success, usage + size)

/-- Modelled from the spec: `IConnectivityModule::releaseMemoryUsage`
    (declared in AwsIotChannel.h) decreases the ledger; the completion
    callback credits the message size back. -/
def releaseMemoryUsage (usage bytes : Nat) : Nat := usage - bytes

/-! ## Trigger engine tick (spec §4.5) -/

structure ConditionConfig where
  minimumPublishIntervalMs : Nat
  afterDuration : Nat
  triggerOnlyOnRisingEdge : Bool

structure ConditionState where
  lastEval : Bool
  lastTriggerTs : Option Nat
  pendingAfter : Option Nat
deriving Repr, DecidableEq

def initialConditionState : ConditionState :=
  { lastEval := false, lastTriggerTs := none, pendingAfter := none }

/-- Modelled from the spec: the per-condition part of the trigger engine's
    tick.  `CollectionInspectionEngine` is only referenced under src/
    (CollectionInspectionWorkerThread.h); its implementation is missing.
    Follows §4.5 steps b-g, with `v` the boolean evaluation of the
    condition at `now` (INVALID already coerced to false by step a).
    Returns the new per-condition state and whether the condition fired.
    `lastTriggerTs` is `none` until the first trigger; step d compares
    against the previous trigger time when there is one. -/
def conditionTick (cfg : ConditionConfig) (st : ConditionState) (now : Nat)
    (v : Bool) : ConditionState × Bool :=
  if cfg.triggerOnlyOnRisingEdge ∧ st.lastEval then
    ({ st with lastEval := v }, false)
  else if v = false then
    ({ st with lastEval := false, pendingAfter := none }, false)
  else if (match st.lastTriggerTs with
           | some t => decide (now - t < cfg.minimumPublishIntervalMs)
           | none => false) then
    ({ st with lastEval := v }, false)
  else if cfg.afterDuration > 0 ∧ st.pendingAfter = none then
    ({ st with lastEval := v, pendingAfter := some (now + cfg.afterDuration) }, false)
  else if (match st.pendingAfter with
           | some d => decide (now < d)
           | none => false) then
    ({ st with lastEval := v }, false)
  else
    ({ lastEval := v, lastTriggerTs := some now, pendingAfter := none }, true)

/-- Run a sequence of ticks `(now, v)`; collect the trigger times. -/
def runTicks (cfg : ConditionConfig) (st : ConditionState) :
    List (Nat × Bool) → ConditionState × List Nat
  | [] => (st, [])
  | (now, v) :: rest =>
    let r := conditionTick cfg st now v
    let rr := runTicks cfg r.1 rest
    (rr.1, if r.2 then now :: rr.2 else rr.2)

/-- Consecutive trigger times are separated by at least `p`. -/
def TriggerSeparated (p : Nat) : List Nat → Prop
  | [] => True
  | [_] => True
  | a :: b :: rest => a + p ≤ b ∧ TriggerSeparated p (b :: rest)

/-- Trigger times separated by at least `p`, the first one also at least
    `p` after `prev` when `prev` is set. -/
def SepFrom (p : Nat) : Option Nat → List Nat → Prop
  | _, [] => True
  | prev, f :: rest => (∀ t, prev = some t → t + p ≤ f) ∧ SepFrom p (some f) rest

/-! ## Theorems -/

lemma lockedQueue_consumeAll_eq {α β : Type} (f : α → β) :
    ∀ (l : List α) (m : Nat),
      LockedQueue.consumeAll ⟨m, l⟩ f = (l.length, l.map f, ⟨m, []⟩) := by
  intro l
  induction l with
  | nil =>
    intro m
    rw [LockedQueue.consumeAll]
    simp [LockedQueue.pop]
  | cons a rest ih =>
    intro m
    rw [LockedQueue.consumeAll]
    simp [LockedQueue.pop, ih]

lemma stepOp_accounting {α : Type} (t : QueueTrace α) (op : QueueOp α)
    (h : t.popped ++ t.queue.mQueue = t.accepted) :
    (stepOp t op).popped ++ (stepOp t op).queue.mQueue = (stepOp t op).accepted := by
  obtain ⟨⟨m, ql⟩, acc, pp⟩ := t
  simp only at h
  cases op with
  | push v =>
    simp only [stepOp, LockedQueue.push]
    split
    · simpa using h
    · simp only [← h]
      simp
  | pop =>
    cases ql with
    | nil => simpa [stepOp, LockedQueue.pop] using h
    | cons a rest =>
      simp only [stepOp, LockedQueue.pop, ← h]
      simp

lemma foldl_stepOp_accounting {α : Type} (ops : List (QueueOp α)) :
    ∀ (t : QueueTrace α), t.popped ++ t.queue.mQueue = t.accepted →
      (ops.foldl stepOp t).popped ++ (ops.foldl stepOp t).queue.mQueue =
        (ops.foldl stepOp t).accepted := by
  induction ops with
  | nil => intro t h; simpa using h
  | cons op rest ih =>
    intro t h
    exact ih _ (stepOp_accounting t op h)

lemma foldl_stepOp_zero_cap {α : Type} (ops : List (QueueOp α)) :
    ∀ (t : QueueTrace α), t.queue.mQueue = [] → t.queue.mMaxSize = 0 →
      (ops.foldl stepOp t).queue.mQueue = [] ∧
        (ops.foldl stepOp t).queue.mMaxSize = 0 := by
  induction ops with
  | nil => intro t h1 h2; exact ⟨h1, h2⟩
  | cons op rest ih =>
    intro t h1 h2
    apply ih
    · cases op <;> simp [stepOp, LockedQueue.push, LockedQueue.pop, h1, h2]
    · cases op <;> simp [stepOp, LockedQueue.push, LockedQueue.pop, h1, h2]

/-- C2: `LockedQueue::push` returns false exactly when the queue already
    holds `mMaxSize` elements, and in that case the queue contents are
    unchanged: the newest element is dropped, nothing is overwritten. -/
theorem lockedQueue_push_false_iff_full {α : Type} (q : LockedQueue α) (v : α)
    (h : q.mQueue.length ≤ q.mMaxSize) :
    ((q.push v).1 = false ↔ q.mQueue.length = q.mMaxSize) ∧
    ((q.push v).1 = false → (q.push v).2 = q) := by
  unfold LockedQueue.push
  split <;> constructor <;> simp_all <;> omega

/-- Witness for C2 at a full queue of capacity 2. -/
theorem lockedQueue_push_false_iff_full_witness :
    (((⟨2, [0, 1]⟩ : LockedQueue Nat).push 5).1 = false ↔
       (⟨2, [0, 1]⟩ : LockedQueue Nat).mQueue.length =
         (⟨2, [0, 1]⟩ : LockedQueue Nat).mMaxSize) ∧
    (((⟨2, [0, 1]⟩ : LockedQueue Nat).push 5).1 = false →
       ((⟨2, [0, 1]⟩ : LockedQueue Nat).push 5).2 = ⟨2, [0, 1]⟩) :=
  lockedQueue_push_false_iff_full (⟨2, [0, 1]⟩ : LockedQueue Nat) 5 (by decide)

/-- C3: across any serialized history of push/pop calls starting from an
    empty queue, the popped elements followed by the elements still queued
    are exactly the successfully pushed elements in enqueue order (FIFO,
    each accepted element delivered at most once and in order); and `pop`
    on an empty queue returns no element and leaves the queue empty. -/
theorem lockedQueue_fifo {α : Type} (c : Nat) (ops : List (QueueOp α)) :
    (runOps c ops).popped ++ (runOps c ops).queue.mQueue = (runOps c ops).accepted ∧
    (∀ m : Nat, (⟨m, []⟩ : LockedQueue α).pop = (none, ⟨m, []⟩)) := by
  constructor
  · exact foldl_stepOp_accounting ops _ (by simp [LockedQueue.mk'])
  · intro m
    rfl

/-- C4: the queue size never exceeds `mMaxSize`: true of the freshly
    constructed queue and preserved by `push`, `pop` and `consumeAll`. -/
theorem lockedQueue_size_le_max {α β : Type} (c : Nat) (q : LockedQueue α)
    (v : α) (f : α → β) (h : q.mQueue.length ≤ q.mMaxSize) :
    (LockedQueue.mk' α c).mQueue.length ≤ (LockedQueue.mk' α c).mMaxSize ∧
    (q.push v).2.mQueue.length ≤ (q.push v).2.mMaxSize ∧
    q.pop.2.mQueue.length ≤ q.pop.2.mMaxSize ∧
    (q.consumeAll f).2.2.mQueue.length ≤ (q.consumeAll f).2.2.mMaxSize := by
  obtain ⟨m, ql⟩ := q
  simp only at h
  refine ⟨by simp [LockedQueue.mk'], ?_, ?_, ?_⟩
  · unfold LockedQueue.push
    split <;> simp_all
  · cases ql with
    | nil => simp [LockedQueue.pop]
    | cons a rest =>
      simp only [LockedQueue.pop]
      simp only [List.length_cons] at h
      omega
  · rw [lockedQueue_consumeAll_eq]
    simp

/-- Witness for C4 at capacity 3 and a one-element queue of capacity 2. -/
theorem lockedQueue_size_le_max_witness :
    (LockedQueue.mk' Nat 3).mQueue.length ≤ (LockedQueue.mk' Nat 3).mMaxSize ∧
    ((⟨2, [7]⟩ : LockedQueue Nat).push 9).2.mQueue.length ≤
      ((⟨2, [7]⟩ : LockedQueue Nat).push 9).2.mMaxSize ∧
    (⟨2, [7]⟩ : LockedQueue Nat).pop.2.mQueue.length ≤
      (⟨2, [7]⟩ : LockedQueue Nat).pop.2.mMaxSize ∧
    ((⟨2, [7]⟩ : LockedQueue Nat).consumeAll (fun x => x + 1)).2.2.mQueue.length ≤
      ((⟨2, [7]⟩ : LockedQueue Nat).consumeAll (fun x => x + 1)).2.2.mMaxSize :=
  lockedQueue_size_le_max 3 (⟨2, [7]⟩ : LockedQueue Nat) 9 (fun x => x + 1) (by decide)

/-- C5: `consumeAll` applies the functor to each queued element in FIFO
    order, returns the element count, and leaves the queue empty. -/
theorem lockedQueue_consumeAll_spec {α β : Type} (q : LockedQueue α) (f : α → β) :
    q.consumeAll f = (q.mQueue.length, q.mQueue.map f, ⟨q.mMaxSize, []⟩) := by
  obtain ⟨m, l⟩ := q
  exact lockedQueue_consumeAll_eq f l m

/-- C7: the compile-time configuration constants have the spec's values. -/
theorem configuration_constants_values :
    MAX_NUMBER_OF_ACTIVE_CONDITION = 256 ∧
    ALL_CONDITIONS = 0xFFFFFFFF ∧
    MAX_EQUATION_DEPTH = 10 ∧
    MAX_DIFFERENT_SIGNAL_IDS = 50000 ∧
    MAXIMUM_IOT_SDK_HEAP_MEMORY_BYTES = 10000000 ∧
    AWS_IOT_MAX_MESSAGE_SIZE = 131072 :=
  ⟨rfl, rfl, rfl, rfl, rfl, rfl⟩

/-- C8: with `mMaxSize = 0` every push is rejected and leaves the queue
    unchanged, and any history of operations starting from an empty
    capacity-0 queue keeps the queue empty forever. -/
theorem lockedQueue_zero_capacity {α : Type} (q : LockedQueue α) (v : α)
    (ops : List (QueueOp α)) (h : q.mMaxSize = 0) :
    ((q.push v).1 = false ∧ (q.push v).2 = q) ∧
    (runOps 0 ops).queue.mQueue = ([] : List α) := by
  constructor
  · unfold LockedQueue.push
    split <;> simp_all
  · exact (foldl_stepOp_zero_cap ops _ rfl rfl).1

/-- Witness for C8: a capacity-0 queue rejects a push and a concrete
    history leaves it empty. -/
theorem lockedQueue_zero_capacity_witness :
    (((⟨0, []⟩ : LockedQueue Nat).push 1).1 = false ∧
       ((⟨0, []⟩ : LockedQueue Nat).push 1).2 = ⟨0, []⟩) ∧
    (runOps 0 [QueueOp.push 1, QueueOp.push 2, QueueOp.pop]).queue.mQueue =
      ([] : List Nat) :=
  lockedQueue_zero_capacity (⟨0, []⟩ : LockedQueue Nat) 1
    [QueueOp.push 1, QueueOp.push 2, QueueOp.pop] rfl

/-- C9: `receivePDU` returns true iff the `read` returned a positive byte
    count, and then `pduData` holds exactly those bytes; a zero or negative
    read leaves `pduData` resized to length 0; and when polling is active
    and `poll` returns `res ≤ 0` (timeout or error), the function returns
    false with `pduData` untouched, still holding the caller's bytes. -/
theorem receivePDU_spec (mP2TimeoutMs p2TimeoutInfinite : Nat) (pollRes : Int)
    (bytesRead : Int) (readContent : List Nat) (pduData : List Nat)
    (hWf : readContent.length = bytesRead.toNat) :
    (mP2TimeoutMs > p2TimeoutInfinite ∧ pollRes ≤ 0 →
      receivePDU mP2TimeoutMs p2TimeoutInfinite pollRes bytesRead readContent pduData =
        (false, pduData)) ∧
    (¬(mP2TimeoutMs > p2TimeoutInfinite ∧ pollRes ≤ 0) →
      ((receivePDU mP2TimeoutMs p2TimeoutInfinite pollRes bytesRead readContent pduData).1 = true ↔
         bytesRead > 0) ∧
      (bytesRead > 0 →
        (receivePDU mP2TimeoutMs p2TimeoutInfinite pollRes bytesRead readContent pduData).2 =
          readContent ∧
        (receivePDU mP2TimeoutMs p2TimeoutInfinite pollRes bytesRead readContent pduData).2.length =
          bytesRead.toNat) ∧
      (bytesRead ≤ 0 →
        (receivePDU mP2TimeoutMs p2TimeoutInfinite pollRes bytesRead readContent pduData).2 =
          [])) := by
  constructor
  · intro hPoll
    simp [receivePDU, hPoll]
  · intro hNoPoll
    refine ⟨?_, ?_, ?_⟩
    · simp only [receivePDU, if_neg hNoPoll]
      split <;> simp_all
    · intro hPos
      have hv : vectorResize
          (readContent ++ (vectorResize pduData MAX_PDU_SIZE).drop readContent.length)
          readContent.length = readContent := by
        unfold vectorResize
        have h0 : readContent.length -
            (readContent ++
              ((pduData.take MAX_PDU_SIZE ++
                List.replicate (MAX_PDU_SIZE - pduData.length) 0).drop
                readContent.length)).length = 0 := by
          simp
        rw [h0]
        simp [List.take_left]
      constructor
      · simp only [receivePDU, if_neg hNoPoll, if_pos hPos, ← hWf]
        exact hv
      · simp only [receivePDU, if_neg hNoPoll, if_pos hPos, ← hWf]
        rw [hv]
    · intro hNeg
      have hneg2 : ¬bytesRead > 0 := by omega
      simp [receivePDU, hNoPoll, hneg2, vectorResize]

/-- Witness for C9: polling disabled, a successful 3-byte read replaces a
    2-byte buffer. -/
theorem receivePDU_spec_witness :
    ((0 : Nat) > (0 : Nat) ∧ (1 : Int) ≤ 0 →
      receivePDU 0 0 1 3 [1, 2, 3] [9, 9] = (false, [9, 9])) ∧
    (¬((0 : Nat) > (0 : Nat) ∧ (1 : Int) ≤ 0) →
      ((receivePDU 0 0 1 3 [1, 2, 3] [9, 9]).1 = true ↔ (3 : Int) > 0) ∧
      ((3 : Int) > 0 →
        (receivePDU 0 0 1 3 [1, 2, 3] [9, 9]).2 = [1, 2, 3] ∧
        (receivePDU 0 0 1 3 [1, 2, 3] [9, 9]).2.length = (3 : Int).toNat) ∧
      ((3 : Int) ≤ 0 → (receivePDU 0 0 1 3 [1, 2, 3] [9, 9]).2 = [])) :=
  receivePDU_spec 0 0 1 3 [1, 2, 3] [9, 9] (by decide)

/-- C10: whenever `getrusage` succeeds, `reportCPUUsageInfo` returns true,
    even when `/proc/uptime` cannot be opened or does not parse into four
    fields (the idle time is then unchanged); and when the line parses as
    "A.B C.D", the stored idle time equals `A + D / 100` for every value of
    the idle whole-seconds field `C` (it is never read from `C`). -/
theorem reportCPUUsageInfo_spec (st : CPUUsageInfo) (ru : Rusage)
    (fileOpen : Bool) (scan : Option (Nat × Nat × Nat × Nat)) :
    (reportCPUUsageInfo st (some ru) fileOpen scan).1 = true ∧
    (fileOpen = false ∨ scan = none →
      (reportCPUUsageInfo st (some ru) fileOpen scan).2.mIdleTime = st.mIdleTime) ∧
    (∀ A B C D : Nat, fileOpen = true → scan = some (A, B, C, D) →
      (reportCPUUsageInfo st (some ru) fileOpen scan).2.mIdleTime =
        (A : ℚ) + (D : ℚ) / 100) := by
  refine ⟨?_, ?_, ?_⟩
  · cases fileOpen <;> cases scan <;> simp [reportCPUUsageInfo]
  · rintro (h | h)
    · subst h; simp [reportCPUUsageInfo]
    · subst h; cases fileOpen <;> simp [reportCPUUsageInfo]
  · intro A B C D hOpen hScan
    subst hOpen hScan
    simp [reportCPUUsageInfo]

/-- Witness for C10: getrusage succeeds; a closed file leaves idle time at
    42; a parsed line "100.25 300.7" stores 100 + 7/100. -/
theorem reportCPUUsageInfo_spec_witness :
    (reportCPUUsageInfo ⟨0, 0, 42⟩ (some ⟨1, 2, 3, 4⟩) true (some (100, 25, 300, 7))).1 = true ∧
    (reportCPUUsageInfo ⟨0, 0, 42⟩ (some ⟨1, 2, 3, 4⟩) false none).2.mIdleTime =
      (⟨0, 0, 42⟩ : CPUUsageInfo).mIdleTime ∧
    (reportCPUUsageInfo ⟨0, 0, 42⟩ (some ⟨1, 2, 3, 4⟩) true (some (100, 25, 300, 7))).2.mIdleTime =
      (100 : ℚ) + (7 : ℚ) / 100 :=
  ⟨(reportCPUUsageInfo_spec ⟨0, 0, 42⟩ ⟨1, 2, 3, 4⟩ true (some (100, 25, 300, 7))).1,
   (reportCPUUsageInfo_spec ⟨0, 0, 42⟩ ⟨1, 2, 3, 4⟩ false none).2.1 (Or.inl rfl),
   (reportCPUUsageInfo_spec ⟨0, 0, 42⟩ ⟨1, 2, 3, 4⟩ true
      (some (100, 25, 300, 7))).2.2 100 25 300 7 rfl rfl⟩

/-- C6 counterexample: with the heap ledger exactly at the 10 MB quota and
    a payload one byte over the 128 KiB limit, `send` returns
    `PayloadTooLarge`, not `QuotaReached`, so "fails with QuotaReached
    whenever usage is at or above 10 MB" is false as stated. -/
theorem send_quota_counterexample :
    (10000000 : Nat) ≥ MAXIMUM_IOT_SDK_HEAP_MEMORY_BYTES ∧
    (send 10000000 131073).1 ≠ ConnectivityError.QuotaReached := by
  constructor
  · decide
  · decide

/-- C6 (amended): oversize payloads fail with `PayloadTooLarge`; within the
    size limit, `send` fails with `QuotaReached` whenever the ledger is at
    or above 10 MB; on success the message size is debited from the ledger
    and `releaseMemoryUsage` credits it back on completion; and
    `getMaxSendSize` is 131072 bytes. -/
theorem send_spec (usage size : Nat) :
    getMaxSendSize = 131072 ∧
    (size > getMaxSendSize →
      (send usage size).1 = ConnectivityError.PayloadTooLarge) ∧
    (size ≤ getMaxSendSize → usage ≥ MAXIMUM_IOT_SDK_HEAP_MEMORY_BYTES →
      (send usage size).1 = ConnectivityError.QuotaReached) ∧
    ((send usage size).1 = ConnectivityError.Success →
      (send usage size).2 = usage + size ∧
      releaseMemoryUsage (send usage size).2 size = usage) := by
  refine ⟨rfl, ?_, ?_, ?_⟩
  · intro hBig
    simp [send, hBig]
  · intro hSize hQuota
    have : ¬size > getMaxSendSize := by omega
    simp [send, this, hQuota]
  · intro hOk
    by_cases h1 : size > getMaxSendSize
    · simp [send, h1] at hOk
    · by_cases h2 : usage ≥ MAXIMUM_IOT_SDK_HEAP_MEMORY_BYTES
      · simp [send, h1, h2] at hOk
      · simp [send, h1, h2, releaseMemoryUsage]

/-- Witness for C6 at three concrete sends: oversize, quota-limited, and
    successful with the ledger round trip. -/
theorem send_spec_witness :
    (send 0 131073).1 = ConnectivityError.PayloadTooLarge ∧
    (send 10000000 5).1 = ConnectivityError.QuotaReached ∧
    ((send 0 5).2 = 0 + 5 ∧ releaseMemoryUsage (send 0 5).2 5 = 0) :=
  ⟨(send_spec 0 131073).2.1 (by decide),
   (send_spec 10000000 5).2.2.1 (by decide) (by decide),
   (send_spec 0 5).2.2.2 (by decide)⟩

lemma conditionTick_fire (cfg : ConditionConfig) (st : ConditionState)
    (now : Nat) (v : Bool) (hf : (conditionTick cfg st now v).2 = true) :
    (conditionTick cfg st now v).1.lastTriggerTs = some now ∧
    (∀ t, st.lastTriggerTs = some t → t ≤ now →
      t + cfg.minimumPublishIntervalMs ≤ now) := by
  unfold conditionTick at *
  split_ifs at * with h1 h2 h3 h4 h5
  all_goals simp_all
  intro t ht hle
  rw [ht] at h3
  simp at h3
  omega

lemma conditionTick_nofire (cfg : ConditionConfig) (st : ConditionState)
    (now : Nat) (v : Bool) (hf : (conditionTick cfg st now v).2 = false) :
    (conditionTick cfg st now v).1.lastTriggerTs = st.lastTriggerTs := by
  unfold conditionTick at *
  split_ifs at * <;> simp_all

lemma runTicks_sepFrom (cfg : ConditionConfig) (ticks : List (Nat × Bool)) :
    ∀ st : ConditionState,
      (∀ u ∈ ticks.map Prod.fst, ∀ t, st.lastTriggerTs = some t → t ≤ u) →
      List.Pairwise (· < ·) (ticks.map Prod.fst) →
      SepFrom cfg.minimumPublishIntervalMs st.lastTriggerTs
        (runTicks cfg st ticks).2 := by
  induction ticks with
  | nil =>
    intro st _ _
    simp [runTicks, SepFrom]
  | cons tick rest ih =>
    obtain ⟨now, v⟩ := tick
    intro st hbound hmono
    simp only [List.map_cons, List.pairwise_cons] at hmono
    simp only [runTicks]
    by_cases hf : (conditionTick cfg st now v).2 = true
    · rw [if_pos hf]
      have hfire := conditionTick_fire cfg st now v hf
      refine ⟨?_, ?_⟩
      · intro t ht
        exact hfire.2 t ht (hbound now (by simp) t ht)
      · have := ih (conditionTick cfg st now v).1 ?_ hmono.2
        · rwa [hfire.1] at this
        · intro u hu t ht
          rw [hfire.1] at ht
          cases ht
          exact le_of_lt (hmono.1 u (by simpa using hu))
    · rw [if_neg hf]
      have hkeep := conditionTick_nofire cfg st now v (by simpa using hf)
      have := ih (conditionTick cfg st now v).1 ?_ hmono.2
      · rwa [hkeep] at this
      · intro u hu t ht
        rw [hkeep] at ht
        exact hbound u (by simp; right; simpa using hu) t ht

lemma sepFrom_triggerSeparated (p : Nat) :
    ∀ (l : List Nat) (prev : Option Nat),
      SepFrom p prev l → TriggerSeparated p l := by
  intro l
  induction l with
  | nil =>
    intro prev _
    simp [TriggerSeparated]
  | cons a rest ih =>
    intro prev h
    cases rest with
    | nil => simp [TriggerSeparated]
    | cons b rest2 =>
      exact ⟨h.2.1 a rfl, ih (some a) h.2⟩

/-- C1 (amended): for any strictly time-increasing tick sequence, the
    trigger engine never fires a condition twice within its minimum publish
    interval `p`: successive trigger times satisfy
    `previous + p ≤ next` (they differ by at least `p`), because the tick
    skips firing whenever `now - last_trigger_ts < p`. -/
theorem trigger_min_publish_interval (cfg : ConditionConfig)
    (ticks : List (Nat × Bool))
    (hmono : List.Pairwise (· < ·) (ticks.map Prod.fst)) :
    TriggerSeparated cfg.minimumPublishIntervalMs
      (runTicks cfg initialConditionState ticks).2 ∧
    (∀ (st : ConditionState) (now : Nat) (v : Bool) (t : Nat),
      st.lastTriggerTs = some t →
      now - t < cfg.minimumPublishIntervalMs →
      (conditionTick cfg st now v).2 = false) := by
  constructor
  · refine sepFrom_triggerSeparated _ _ initialConditionState.lastTriggerTs
      (runTicks_sepFrom cfg ticks initialConditionState ?_ hmono)
    intro u hu t ht
    simp [initialConditionState] at ht
  · intro st now v t ht hlt
    unfold conditionTick
    split_ifs with h1 h2 h3 h4 h5 <;> try rfl
    exfalso
    rw [ht] at h3
    simp at h3
    omega

/-- Witness for C1: an always-true condition with `p = 5` ticked at times
    0, 3, 7 (so 3 is skipped), and a concrete skipped tick at
    `now - last_trigger_ts = 2 < 5`. -/
theorem trigger_min_publish_interval_witness :
    TriggerSeparated 5
      (runTicks ⟨5, 0, false⟩ initialConditionState
        [(0, true), (3, true), (7, true)]).2 ∧
    (conditionTick ⟨5, 0, false⟩ ⟨true, some 4, none⟩ 6 true).2 = false :=
  ⟨(trigger_min_publish_interval ⟨5, 0, false⟩
      [(0, true), (3, true), (7, true)] (by decide)).1,
   (trigger_min_publish_interval ⟨5, 0, false⟩ [] (by decide)).2
      ⟨true, some 4, none⟩ 6 true 4 rfl (by decide)⟩

/-- C1 counterexample: with `p = 5` and an always-true condition ticked at
    times 0 and 5, the triggers happen at 0 and at 5 = 0 + p exactly, so a
    `triggered_at` is not strictly greater than the previous
    `triggered_at + minimumPublishIntervalMs`. -/
theorem trigger_strict_counterexample :
    (runTicks ⟨5, 0, false⟩ initialConditionState [(0, true), (5, true)]).2 =
      [0, 5] ∧
    ¬((5 : Nat) > 0 + 5) := by
  constructor
  · decide
  · decide

end FleetWise
